import Mathlib

/-!
Verification development for the bloatSQL database access layer.

The Rust sources are shallowly embedded as follows:
* machine bytes (`u8`) are `Nat` values, with `% 256` made explicit where the
  8-bit range matters;
* Rust `String` / `&str` values that only flow through SQL-text construction
  are Lean `String`s; values that flow through the cipher / base64 / UTF-8
  machinery of the credential store are `List Nat` of their UTF-8 bytes;
* fallible operations return `Except` / `Option`; the outcome of a network
  round-trip (driver exec, connection attempt) is an explicit oracle argument.
-/

set_option maxHeartbeats 1000000

/-! ## UTF-8 (Rust `String::from_utf8_lossy` and validity), byte level -/

/-- Continuation-byte test: `0x80 ≤ b ≤ 0xBF`. -/
def isCont (b : Nat) : Bool := decide (128 ≤ b ∧ b ≤ 191)

/-- UTF-8 bytes of U+FFFD REPLACEMENT CHARACTER, emitted by lossy decoding. -/
def rep3 : List Nat := [239, 191, 189]

/-- Allowed second byte after a three-byte leading byte `b1 ∈ [0xE0, 0xEF]`
(excluding surrogates and overlong forms, as Rust's UTF-8 validation does). -/
def utf8Cont2Ok (b1 b2 : Nat) : Bool :=
  if b1 = 224 then decide (160 ≤ b2 ∧ b2 ≤ 191)
  else if b1 = 237 then decide (128 ≤ b2 ∧ b2 ≤ 159)
  else isCont b2

/-- Allowed second byte after a four-byte leading byte `b1 ∈ [0xF0, 0xF4]`. -/
def utf8Cont3Ok (b1 b2 : Nat) : Bool :=
  if b1 = 240 then decide (144 ≤ b2 ∧ b2 ≤ 191)
  else if b1 = 244 then decide (128 ≤ b2 ∧ b2 ≤ 143)
  else isCont b2

/-- Byte-level model of Rust `String::from_utf8_lossy`: the UTF-8 bytes of the
lossily decoded string.  Valid scalar sequences are copied; each maximal invalid
subpart is replaced by the bytes of U+FFFD, resuming at the first offending
byte. -/
def utf8Lossy : List Nat → List Nat
  | [] => []
  | b1 :: t1 =>
    if b1 < 128 then b1 :: utf8Lossy t1
    else if 194 ≤ b1 ∧ b1 ≤ 223 then
      match t1 with
      | b2 :: t2 => if isCont b2 then b1 :: b2 :: utf8Lossy t2 else rep3 ++ utf8Lossy (b2 :: t2)
      | [] => rep3
    else if 224 ≤ b1 ∧ b1 ≤ 239 then
      match t1 with
      | b2 :: t2 =>
        if utf8Cont2Ok b1 b2 then
          match t2 with
          | b3 :: t3 =>
            if isCont b3 then b1 :: b2 :: b3 :: utf8Lossy t3 else rep3 ++ utf8Lossy (b3 :: t3)
          | [] => rep3
        else rep3 ++ utf8Lossy (b2 :: t2)
      | [] => rep3
    else if 240 ≤ b1 ∧ b1 ≤ 244 then
      match t1 with
      | b2 :: t2 =>
        if utf8Cont3Ok b1 b2 then
          match t2 with
          | b3 :: t3 =>
            if isCont b3 then
              match t3 with
              | b4 :: t4 =>
                if isCont b4 then b1 :: b2 :: b3 :: b4 :: utf8Lossy t4
                else rep3 ++ utf8Lossy (b4 :: t4)
              | [] => rep3
            else rep3 ++ utf8Lossy (b3 :: t3)
          | [] => rep3
        else rep3 ++ utf8Lossy (b2 :: t2)
      | [] => rep3
    else rep3 ++ utf8Lossy t1
termination_by l => l.length
decreasing_by all_goals (simp only [List.length_cons]; omega)

/-- Byte-level UTF-8 validity (the sequences Rust `str::from_utf8` accepts),
with the same case structure as `utf8Lossy`. -/
def utf8Valid : List Nat → Bool
  | [] => true
  | b1 :: t1 =>
    if b1 < 128 then utf8Valid t1
    else if 194 ≤ b1 ∧ b1 ≤ 223 then
      match t1 with
      | b2 :: t2 => isCont b2 && utf8Valid t2
      | [] => false
    else if 224 ≤ b1 ∧ b1 ≤ 239 then
      match t1 with
      | b2 :: t2 =>
        utf8Cont2Ok b1 b2 &&
          match t2 with
          | b3 :: t3 => isCont b3 && utf8Valid t3
          | [] => false
      | [] => false
    else if 240 ≤ b1 ∧ b1 ≤ 244 then
      match t1 with
      | b2 :: t2 =>
        utf8Cont3Ok b1 b2 &&
          match t2 with
          | b3 :: t3 =>
            isCont b3 &&
              match t3 with
              | b4 :: t4 => isCont b4 && utf8Valid t4
              | [] => false
          | [] => false
      | [] => false
    else false
termination_by l => l.length
decreasing_by all_goals (simp only [List.length_cons]; omega)

/-- Lossy decoding is the identity on valid UTF-8 byte sequences. -/
theorem utf8Lossy_of_valid : ∀ l : List Nat, utf8Valid l = true → utf8Lossy l = l := by
  intro l
  induction l using utf8Lossy.induct <;>
    intro hv <;>
    rw [utf8Valid.eq_def] at hv <;>
    rw [utf8Lossy.eq_def] <;>
    dsimp only at hv ⊢ <;>
    split_ifs at hv ⊢ <;> simp_all

/-! ## Base64 (the `base64` crate's `general_purpose::STANDARD` engine:
canonical alphabet, mandatory padding, trailing bits checked) -/

/-- Character (as ASCII byte) of a 6-bit group, standard alphabet. -/
def b64Char (i : Nat) : Nat :=
  if i < 26 then 65 + i
  else if i < 52 then 97 + (i - 26)
  else if i < 62 then 48 + (i - 52)
  else if i = 62 then 43
  else 47

/-- Inverse alphabet lookup; `none` for bytes outside the alphabet
(including the padding byte 61, ASCII for the equals sign). -/
def b64Dec (c : Nat) : Option Nat :=
  if 65 ≤ c ∧ c ≤ 90 then some (c - 65)
  else if 97 ≤ c ∧ c ≤ 122 then some (c - 97 + 26)
  else if 48 ≤ c ∧ c ≤ 57 then some (c - 48 + 52)
  else if c = 43 then some 62
  else if c = 47 then some 63
  else none

/-- Model of `general_purpose::STANDARD.encode`: bytes to padded base64 text
(as ASCII bytes), three input bytes per four output characters. -/
def base64Encode : List Nat → List Nat
  | [] => []
  | [a] => [b64Char (a / 4), b64Char (a % 4 * 16), 61, 61]
  | [a, b] => [b64Char (a / 4), b64Char (a % 4 * 16 + b / 16), b64Char (b % 16 * 4), 61]
  | a :: b :: c :: rest =>
    b64Char (a / 4) :: b64Char (a % 4 * 16 + b / 16) :: b64Char (b % 16 * 4 + c / 64) ::
      b64Char (c % 64) :: base64Encode rest

/-- Model of `general_purpose::STANDARD.decode`: strict canonical decoding.
Inputs whose length is not a multiple of four, bytes outside the alphabet,
misplaced padding, or non-zero trailing bits yield `none` (the crate's
`DecodeError`). -/
def base64Decode : List Nat → Option (List Nat)
  | [] => some []
  | c1 :: c2 :: c3 :: c4 :: rest =>
    if c3 = 61 ∧ c4 = 61 ∧ rest = [] then
      match b64Dec c1, b64Dec c2 with
      | some e1, some e2 => if e2 % 16 = 0 then some [e1 * 4 + e2 / 16] else none
      | _, _ => none
    else if c4 = 61 ∧ rest = [] then
      match b64Dec c1, b64Dec c2, b64Dec c3 with
      | some e1, some e2, some e3 =>
        if e3 % 4 = 0 then some [e1 * 4 + e2 / 16, e2 % 16 * 16 + e3 / 4] else none
      | _, _, _ => none
    else
      match b64Dec c1, b64Dec c2, b64Dec c3, b64Dec c4 with
      | some e1, some e2, some e3, some e4 =>
        match base64Decode rest with
        | some bs => some ((e1 * 4 + e2 / 16) :: (e2 % 16 * 16 + e3 / 4) :: (e3 % 4 * 64 + e4) :: bs)
        | none => none
      | _, _, _, _ => none
  | _ => none

/-- Alphabet lookup inverts the alphabet map on six-bit values. -/
theorem b64Dec_b64Char : ∀ i, i < 64 → b64Dec (b64Char i) = some i := by decide

/-- The alphabet never produces the padding byte. -/
theorem b64Char_ne_pad : ∀ i, i < 64 → b64Char i ≠ 61 := by decide

/-- Strict decoding inverts encoding on byte sequences. -/
theorem base64_roundtrip :
    ∀ l : List Nat, (∀ b ∈ l, b < 256) → base64Decode (base64Encode l) = some l := by
  intro l
  induction l using base64Encode.induct with
  | case1 => intro _; rfl
  | case2 a =>
    intro hb
    have ha : a < 256 := hb a (by simp)
    have d1 := b64Dec_b64Char (a / 4) (by omega)
    have d2 := b64Dec_b64Char (a % 4 * 16) (by omega)
    have h0 : a % 4 * 16 % 16 = 0 := by omega
    simp [base64Encode, base64Decode, d1, d2, h0]
    omega
  | case3 a b =>
    intro hb
    have ha : a < 256 := hb a (by simp)
    have hb2 : b < 256 := hb b (by simp)
    have d1 := b64Dec_b64Char (a / 4) (by omega)
    have d2 := b64Dec_b64Char (a % 4 * 16 + b / 16) (by omega)
    have d3 := b64Dec_b64Char (b % 16 * 4) (by omega)
    have n3 := b64Char_ne_pad (b % 16 * 4) (by omega)
    have h0 : b % 16 * 4 % 4 = 0 := by omega
    simp [base64Encode, base64Decode, d1, d2, d3, n3, h0]
    omega
  | case4 a b c rest ih =>
    intro hb
    have ha : a < 256 := hb a (by simp)
    have hb2 : b < 256 := hb b (by simp)
    have hc : c < 256 := hb c (by simp)
    have hrest : ∀ x ∈ rest, x < 256 := fun x hx => hb x (by simp [hx])
    have d1 := b64Dec_b64Char (a / 4) (by omega)
    have d2 := b64Dec_b64Char (a % 4 * 16 + b / 16) (by omega)
    have d3 := b64Dec_b64Char (b % 16 * 4 + c / 64) (by omega)
    have d4 := b64Dec_b64Char (c % 64) (by omega)
    have n3 := b64Char_ne_pad (b % 16 * 4 + c / 64) (by omega)
    have n4 := b64Char_ne_pad (c % 64) (by omega)
    simp [base64Encode, base64Decode, d1, d2, d3, d4, n3, n4, ih hrest]
    omega

/-! ## AES-256-GCM (the `aes-gcm` crate's `Aes256Gcm`)

GCM uses the AES block cipher only in the forward direction (CTR keystream and
GHASH key), so the block cipher below is embedded forward-only.  Bytes are
`Nat`s; every byte produced for the outside is reduced `% 256`, making the
`u8` range explicit. -/

/-- Multiplication by x in GF(2^8) with the AES reduction polynomial 0x11B. -/
def xtime (b : Nat) : Nat := if b < 128 then b * 2 else b * 2 ^^^ 0x11B

/-- Russian-peasant multiplication in GF(2^8), eight bit steps. -/
def gmulAux : Nat → Nat → Nat → Nat → Nat
  | 0, _, _, acc => acc
  | f + 1, a, b, acc => gmulAux f (xtime a) (b / 2) (if b % 2 = 1 then acc ^^^ a else acc)

/-- GF(2^8) product of two bytes. -/
def gmul (a b : Nat) : Nat := gmulAux 8 a b 0

/-- Iterated GF(2^8) product, used to compute the field inverse as a^254. -/
def gpowAux : Nat → Nat → Nat → Nat
  | 0, _, acc => acc
  | n + 1, a, acc => gpowAux n a (gmul acc a)

/-- GF(2^8) inverse via a^254 (maps 0 to 0, as the AES S-box requires). -/
def ginv (a : Nat) : Nat := gpowAux 254 a 1

/-- Rotate a byte left by `n` bits. -/
def rotl8 (x n : Nat) : Nat := (x <<< n ||| x >>> (8 - n)) &&& 255

/-- The AES S-box: field inverse followed by the affine transform. -/
def sbox (a : Nat) : Nat :=
  (fun x => x ^^^ rotl8 x 1 ^^^ rotl8 x 2 ^^^ rotl8 x 3 ^^^ rotl8 x 4 ^^^ 0x63)
    (ginv (a &&& 255))

/-- Round-constant byte: successive doublings of 1 in GF(2^8). -/
def rconVal : Nat → Nat
  | 0 => 1
  | n + 1 => xtime (rconVal n)

/-- Apply the S-box to each byte of a four-byte word. -/
def subWord (w : List Nat) : List Nat := w.map sbox

/-- Rotate a four-byte word left by one byte. -/
def rotWord (w : List Nat) : List Nat := w.drop 1 ++ w.take 1

/-- One step of the AES-256 key schedule: append the next four-byte word. -/
def nextKeyWord (ws : List (List Nat)) : List (List Nat) :=
  let i := ws.length
  let prev := ws.getD (i - 1) [0, 0, 0, 0]
  let back8 := ws.getD (i - 8) [0, 0, 0, 0]
  let temp :=
    if i % 8 = 0 then
      List.zipWith (fun a b => a ^^^ b) (subWord (rotWord prev)) [rconVal (i / 8 - 1), 0, 0, 0]
    else if i % 8 = 4 then subWord prev
    else prev
  ws ++ [List.zipWith (fun a b => a ^^^ b) back8 temp]

/-- AES-256 key expansion: 60 four-byte words from a 32-byte key. -/
def keyExpansion (key : List Nat) : List (List Nat) :=
  Nat.rec
    ((List.range 8).map fun i =>
      [key.getD (4 * i) 0, key.getD (4 * i + 1) 0, key.getD (4 * i + 2) 0,
        key.getD (4 * i + 3) 0])
    (fun _ ws => nextKeyWord ws) 52

/-- The sixteen bytes of round key `r` (column-major state order). -/
def roundKey (key : List Nat) (r : Nat) : List Nat :=
  (((keyExpansion key).drop (4 * r)).take 4).flatten

/-- SubBytes on a sixteen-byte state. -/
def subBytes (s : List Nat) : List Nat := s.map sbox

/-- ShiftRows on a sixteen-byte state laid out column-major. -/
def shiftRows (s : List Nat) : List Nat :=
  (List.range 16).map fun i => s.getD (i % 4 + 4 * ((i / 4 + i % 4) % 4)) 0

/-- MixColumns matrix applied to one column. -/
def mixColumn (a0 a1 a2 a3 : Nat) : List Nat :=
  [gmul 2 a0 ^^^ gmul 3 a1 ^^^ a2 ^^^ a3,
   a0 ^^^ gmul 2 a1 ^^^ gmul 3 a2 ^^^ a3,
   a0 ^^^ a1 ^^^ gmul 2 a2 ^^^ gmul 3 a3,
   gmul 3 a0 ^^^ a1 ^^^ a2 ^^^ gmul 2 a3]

/-- MixColumns on a sixteen-byte state. -/
def mixColumns (s : List Nat) : List Nat :=
  (List.range 4).flatMap fun c =>
    mixColumn (s.getD (4 * c) 0) (s.getD (4 * c + 1) 0) (s.getD (4 * c + 2) 0)
      (s.getD (4 * c + 3) 0)

/-- AddRoundKey: bytewise xor of state and round key. -/
def addRoundKey (s rk : List Nat) : List Nat := List.zipWith (fun a b => a ^^^ b) s rk

/-- AES-256 forward block transform: initial AddRoundKey, thirteen full rounds,
one final round without MixColumns. -/
def aesBlockRaw (key block : List Nat) : List Nat :=
  (fun s =>
    addRoundKey (shiftRows (subBytes s)) (roundKey key 14))
    ((List.range 13).foldl
      (fun s r => addRoundKey (mixColumns (shiftRows (subBytes s))) (roundKey key (r + 1)))
      (addRoundKey block (roundKey key 0)))

/-- AES-256 block output with the `u8` range of each byte made explicit. -/
def aesBlock (key block : List Nat) : List Nat := (aesBlockRaw key block).map (· % 256)

/-- Big-endian four-byte encoding of a 32-bit counter. -/
def be32 (n : Nat) : List Nat :=
  [n / 2 ^ 24 % 256, n / 2 ^ 16 % 256, n / 2 ^ 8 % 256, n % 256]

/-- Big-endian eight-byte encoding of a 64-bit length. -/
def be64 (n : Nat) : List Nat := (List.range 8).map fun i => n / 256 ^ (7 - i) % 256

/-- CTR input block: the 96-bit nonce followed by a 32-bit counter. -/
def ctrBlock (nonce : List Nat) (ctr : Nat) : List Nat := nonce.take 12 ++ be32 ctr

/-- Byte `i` of the GCM CTR keystream (plaintext counters start at 2). -/
def keystreamByte (key nonce : List Nat) (i : Nat) : Nat :=
  (aesBlock key (ctrBlock nonce (2 + i / 16))).getD (i % 16) 0 % 256

/-- First `len` bytes of the GCM CTR keystream. -/
def keystream (key nonce : List Nat) (len : Nat) : List Nat :=
  (List.range len).map (keystreamByte key nonce)

/-- Bytewise xor of data against a keystream (CTR encryption = decryption). -/
def ctrXor (data ks : List Nat) : List Nat := List.zipWith (fun a b => a ^^^ b) data ks

/-- A byte list as a big-endian natural number (128-bit GHASH element). -/
def bytesToNat (l : List Nat) : Nat := l.foldl (fun acc b => acc * 256 + b % 256) 0

/-- A 128-bit natural number as sixteen big-endian bytes. -/
def natToBytes16 (n : Nat) : List Nat := (List.range 16).map fun i => n / 256 ^ (15 - i) % 256

/-- Carry-less GF(2^128) product step (bits of x from the most significant). -/
def gf128MulAux : Nat → Nat → Nat → Nat → Nat
  | 0, _, _, z => z
  | f + 1, x, v, z =>
    gf128MulAux f (x * 2 % 2 ^ 128)
      (if v % 2 = 1 then v / 2 ^^^ 0xE1000000000000000000000000000000 else v / 2)
      (if x / 2 ^ 127 % 2 = 1 then z ^^^ v else z)

/-- GF(2^128) product with the GHASH reduction polynomial. -/
def gf128Mul (x y : Nat) : Nat := gf128MulAux 128 x y 0

/-- Split a byte list into sixteen-byte blocks, zero-padding the last one. -/
def blocks16 (l : List Nat) : List (List Nat) :=
  (List.range ((l.length + 15) / 16)).map fun i =>
    (List.range 16).map fun j => l.getD (16 * i + j) 0

/-- GHASH over the given blocks with hash key `h`. -/
def ghash (h : Nat) (bs : List (List Nat)) : Nat :=
  bs.foldl (fun y b => gf128Mul (y ^^^ bytesToNat b) h) 0

/-- GCM authentication tag over a ciphertext (empty associated data), as
sixteen bytes: GHASH of the padded ciphertext and the length block, encrypted
with the counter-1 block. -/
def gcmTag (key nonce ct : List Nat) : List Nat :=
  (List.range 16).map fun i =>
    ((natToBytes16
        (ghash (bytesToNat (aesBlock key (List.replicate 16 0)))
          (blocks16 ct ++ [be64 0 ++ be64 (8 * ct.length)]))).getD i 0 ^^^
      (aesBlock key (ctrBlock nonce 1)).getD i 0) % 256

/-- Model of `Aes256Gcm::encrypt`: CTR-encrypted plaintext followed by the
sixteen-byte authentication tag. -/
def aesGcmEncrypt (key nonce pt : List Nat) : List Nat :=
  ctrXor pt (keystream key nonce pt.length) ++
    gcmTag key nonce (ctrXor pt (keystream key nonce pt.length))

/-- Model of `Aes256Gcm::decrypt`: split off the trailing tag, recompute it
over the ciphertext, and CTR-decrypt only if the tags match. -/
def aesGcmDecrypt (key nonce data : List Nat) : Option (List Nat) :=
  if data.length < 16 then none
  else
    if data.drop (data.length - 16) = gcmTag key nonce (data.take (data.length - 16)) then
      some (ctrXor (data.take (data.length - 16))
        (keystream key nonce (data.take (data.length - 16)).length))
    else none

/-- The keystream has exactly the requested length. -/
theorem keystream_length (key nonce : List Nat) (len : Nat) :
    (keystream key nonce len).length = len := by
  simp [keystream]

/-- CTR encryption preserves the data length. -/
theorem ctrXor_keystream_length (key nonce data : List Nat) :
    (ctrXor data (keystream key nonce data.length)).length = data.length := by
  simp [ctrXor, keystream_length]

/-- The authentication tag is sixteen bytes. -/
theorem gcmTag_length (key nonce ct : List Nat) : (gcmTag key nonce ct).length = 16 := by
  simp [gcmTag]

/-- Keystream bytes are in `u8` range. -/
theorem keystream_lt (key nonce : List Nat) (len : Nat) :
    ∀ b ∈ keystream key nonce len, b < 256 := by
  intro b hb
  simp only [keystream, List.mem_map] at hb
  obtain ⟨i, -, rfl⟩ := hb
  exact Nat.mod_lt _ (by norm_num)

/-- Tag bytes are in `u8` range. -/
theorem gcmTag_lt (key nonce ct : List Nat) : ∀ b ∈ gcmTag key nonce ct, b < 256 := by
  intro b hb
  simp only [gcmTag, List.mem_map] at hb
  obtain ⟨i, -, rfl⟩ := hb
  exact Nat.mod_lt _ (by norm_num)

/-- Xoring two byte lists stays in `u8` range. -/
theorem zipWith_xor_lt :
    ∀ l1 l2 : List Nat, (∀ a ∈ l1, a < 256) → (∀ a ∈ l2, a < 256) →
      ∀ c ∈ List.zipWith (fun a b => a ^^^ b) l1 l2, c < 256 := by
  intro l1
  induction l1 with
  | nil => intro l2 _ _ c hc; simp at hc
  | cons a t ih =>
    intro l2 h1 h2 c hc
    cases l2 with
    | nil => simp at hc
    | cons b t2 =>
      simp only [List.zipWith_cons_cons, List.mem_cons] at hc
      rcases hc with rfl | hc
      · have ha : a < 256 := h1 a (by simp)
        have hb : b < 256 := h2 b (by simp)
        exact Nat.xor_lt_two_pow (n := 8) ha hb
      · exact ih t2 (fun x hx => h1 x (by simp [hx])) (fun x hx => h2 x (by simp [hx])) c hc

/-- Xoring the same list twice is the identity (bytewise xor involution). -/
theorem zipWith_xor_xor :
    ∀ l ks : List Nat, ks.length = l.length →
      List.zipWith (fun a b => a ^^^ b) (List.zipWith (fun a b => a ^^^ b) l ks) ks = l := by
  intro l
  induction l with
  | nil => intro ks _; simp
  | cons a t ih =>
    intro ks hlen
    cases ks with
    | nil => simp at hlen
    | cons k tk =>
      simp only [List.zipWith_cons_cons]
      rw [ih tk (by simpa using hlen)]
      rw [Nat.xor_cancel_right]

/-- Decrypting an encryption with the same key and nonce recovers the
plaintext: the recomputed tag matches and the CTR keystream cancels. -/
theorem aesGcm_roundtrip (key nonce pt : List Nat) :
    aesGcmDecrypt key nonce (aesGcmEncrypt key nonce pt) = some pt := by
  unfold aesGcmEncrypt aesGcmDecrypt
  have hct : (ctrXor pt (keystream key nonce pt.length)).length = pt.length :=
    ctrXor_keystream_length key nonce pt
  have htag := gcmTag_length key nonce (ctrXor pt (keystream key nonce pt.length))
  rw [List.length_append, hct, htag]
  rw [if_neg (by omega)]
  have e : pt.length + 16 - 16 = (ctrXor pt (keystream key nonce pt.length)).length := by omega
  rw [e, List.take_left, List.drop_left]
  rw [if_pos rfl]
  rw [hct]
  simp only [ctrXor]
  rw [zipWith_xor_xor pt (keystream key nonce pt.length) (keystream_length key nonce pt.length)]

/-! ## Credential store (`storage/connections_store.rs`)

Strings are modelled as the lists of their UTF-8 bytes.  The store's key is a
`[u8; 32]`, so the `Aes256Gcm::new_from_slice` error branch of the source
(taken only for keys whose length is not 32) is statically dead and not
modelled.  The random nonce drawn inside `encrypt_password` is an explicit
argument. -/

namespace ConnectionsStore

/-- Model of `encrypt_password`: AES-256-GCM encrypt with a fresh 96-bit
nonce, then base64 of nonce followed by ciphertext-with-tag. -/
def encrypt_password (key nonce password : List Nat) : List Nat :=
  base64Encode (nonce ++ aesGcmEncrypt key nonce password)

/-- Model of `decrypt_password`: base64-decode (returning the input verbatim
on failure), treat values too short for nonce plus tag as legacy
base64-plaintext, otherwise AES-GCM-decrypt and fall back to legacy
base64-plaintext when the tag check fails. -/
def decrypt_password (key encrypted : List Nat) : List Nat :=
  match base64Decode encrypted with
  | none => encrypted
  | some combined =>
    if combined.length < 12 + 16 then utf8Lossy combined
    else
      match aesGcmDecrypt key (combined.take 12) (combined.drop 12) with
      | some plaintext => utf8Lossy plaintext
      | none => utf8Lossy combined

end ConnectionsStore

/-- C4: for every UTF-8 password (as its byte sequence, including the empty
one), decrypting the encryption made with the same store key returns the
original password. -/
theorem encrypt_decrypt_roundtrip (key nonce password : List Nat)
    (hn : nonce.length = 12) (hnb : ∀ b ∈ nonce, b < 256)
    (hpb : ∀ b ∈ password, b < 256) (hval : utf8Valid password = true) :
    ConnectionsStore.decrypt_password key
      (ConnectionsStore.encrypt_password key nonce password) = password := by
  have hdata : ∀ b ∈ aesGcmEncrypt key nonce password, b < 256 := by
    intro b hb
    rw [aesGcmEncrypt, List.mem_append] at hb
    rcases hb with hb | hb
    · exact zipWith_xor_lt password (keystream key nonce password.length) hpb
        (keystream_lt key nonce password.length) b hb
    · exact gcmTag_lt key nonce _ b hb
  have hcomb : ∀ b ∈ nonce ++ aesGcmEncrypt key nonce password, b < 256 := by
    intro b hb
    rw [List.mem_append] at hb
    rcases hb with hb | hb
    · exact hnb b hb
    · exact hdata b hb
  have hlen : (aesGcmEncrypt key nonce password).length = password.length + 16 := by
    rw [aesGcmEncrypt, List.length_append, ctrXor_keystream_length, gcmTag_length]
  rw [ConnectionsStore.encrypt_password, ConnectionsStore.decrypt_password]
  rw [base64_roundtrip _ hcomb]
  dsimp only
  rw [if_neg (by rw [List.length_append, hn, hlen]; omega)]
  rw [show (12 : Nat) = nonce.length from hn.symm, List.take_left, List.drop_left]
  rw [aesGcm_roundtrip key nonce password]
  exact utf8Lossy_of_valid password hval

/-- Witness for C4 at a concrete key, nonce and password. -/
theorem encrypt_decrypt_roundtrip_witness :
    ((List.replicate 12 (0 : Nat)).length = 12 ∧
      (∀ b ∈ List.replicate 12 (0 : Nat), b < 256) ∧
      (∀ b ∈ [104, 105], b < 256) ∧ utf8Valid [104, 105] = true) ∧
    ConnectionsStore.decrypt_password (List.replicate 32 0)
      (ConnectionsStore.encrypt_password (List.replicate 32 0)
        (List.replicate 12 0) [104, 105]) = [104, 105] :=
  ⟨⟨by decide, by decide, by decide, by simp [utf8Valid]⟩,
    encrypt_decrypt_roundtrip (List.replicate 32 0) (List.replicate 12 0) [104, 105]
      (by decide) (by decide) (by decide) (by simp [utf8Valid])⟩

/-- C8: a stored value that is plain base64 of a UTF-8 plaintext with no AES
nonce/tag framing (shorter than nonce plus minimum tag, or failing the tag
check) decrypts to the original plaintext via the legacy fallback. -/
theorem decrypt_password_legacy (key plain : List Nat)
    (hpb : ∀ b ∈ plain, b < 256) (hval : utf8Valid plain = true)
    (hnoframe : plain.length < 28 ∨
      aesGcmDecrypt key (plain.take 12) (plain.drop 12) = none) :
    ConnectionsStore.decrypt_password key (base64Encode plain) = plain := by
  rw [ConnectionsStore.decrypt_password]
  rw [base64_roundtrip _ hpb]
  dsimp only
  rcases hnoframe with h | h
  · rw [if_pos (by omega)]
    exact utf8Lossy_of_valid plain hval
  · by_cases hlen : plain.length < 12 + 16
    · rw [if_pos hlen]
      exact utf8Lossy_of_valid plain hval
    · rw [if_neg hlen, h]
      exact utf8Lossy_of_valid plain hval

/-- Witness for C8 at a concrete short legacy value. -/
theorem decrypt_password_legacy_witness :
    ((∀ b ∈ [104, 105], b < 256) ∧ utf8Valid [104, 105] = true ∧
      ([104, 105] : List Nat).length < 28) ∧
    ConnectionsStore.decrypt_password (List.replicate 32 0)
      (base64Encode [104, 105]) = [104, 105] :=
  ⟨⟨by decide, by simp [utf8Valid], by decide⟩,
    decrypt_password_legacy (List.replicate 32 0) [104, 105] (by decide) (by simp [utf8Valid])
      (Or.inl (by decide))⟩

/-- C10: `decrypt_password` is total on its shallow embedding: every input
yields a result, namely the input itself when base64 decoding fails
(returned verbatim), and otherwise a lossy UTF-8 decoding of either the
recovered plaintext or the decoded bytes. -/
theorem decrypt_password_total (key s : List Nat) :
    (base64Decode s = none → ConnectionsStore.decrypt_password key s = s) ∧
    (ConnectionsStore.decrypt_password key s = s ∨
      ∃ bs, ConnectionsStore.decrypt_password key s = utf8Lossy bs) := by
  constructor
  · intro h
    rw [ConnectionsStore.decrypt_password, h]
  · rw [ConnectionsStore.decrypt_password]
    cases hd : base64Decode s with
    | none => exact Or.inl rfl
    | some combined =>
      refine Or.inr ?_
      dsimp only
      by_cases hlen : combined.length < 12 + 16
      · exact ⟨combined, by rw [if_pos hlen]⟩
      · rw [if_neg hlen]
        cases hdec : aesGcmDecrypt key (combined.take 12) (combined.drop 12) with
        | some pt => exact ⟨pt, rfl⟩
        | none => exact ⟨combined, rfl⟩

/-- Witness for C10 at a concrete non-base64 input. -/
theorem decrypt_password_total_witness :
    base64Decode [33] = none ∧
    ConnectionsStore.decrypt_password (List.replicate 32 0) [33] = [33] :=
  ⟨by decide, (decrypt_password_total (List.replicate 32 0) [33]).1 (by decide)⟩

/-! ## Shared driver types (`db/connection.rs`)

The `connection.rs` copy in the tree declares `QueryError` with `message` and
`code`; the `detail` and `hint` fields and the `with_code` / `with_detail` /
`with_hint` builders that `postgresql.rs` and `commands.rs` use are not in the
tree.  Modelled from the spec: a structured error carrying message, optional
engine error code, optional detail, optional hint. -/

structure QueryError where
  message : String
  code : Option String := none
  detail : Option String := none
  hint : Option String := none
deriving DecidableEq, Repr

/-- Builder: message plus error code (`QueryError::with_code`). -/
def QueryError.with_code (m c : String) : QueryError :=
  { message := m, code := some c }

/-- Builder: attach a detail (`QueryError::with_detail`). -/
def QueryError.with_detail (e : QueryError) (d : String) : QueryError :=
  { e with detail := some d }

/-- Builder: attach a hint (`QueryError::with_hint`). -/
def QueryError.with_hint (e : QueryError) (h : String) : QueryError :=
  { e with hint := some h }

/-- Row cap of both drivers (`MAX_QUERY_ROWS` in `connection.rs`). -/
def MAX_QUERY_ROWS : Nat := 10000

/-- Result of `execute_query` (`QueryResult` in `connection.rs`); `J` stands
for `serde_json::Value`. -/
structure QueryResult (J : Type) where
  columns : List String
  rows : List J
  row_count : Nat
  execution_time : Nat
  truncated : Bool

/-! ## Connection factory (`db/factory.rs`) -/

/-- ASCII lowercasing; Rust `str::to_lowercase` performs the full Unicode
mapping, which agrees with the ASCII mapping on the engine-name alphabets the
factory compares against. -/
def toLowerAscii (s : String) : String :=
  String.mk (s.data.map fun c =>
    if 65 ≤ c.toNat ∧ c.toNat ≤ 90 then Char.ofNat (c.toNat + 32) else c)

/-- The two driver variants the factory can construct. -/
inductive DriverKind
  | mariadb
  | postgres
deriving DecidableEq

/-- Model of `create_connection`'s engine dispatch: the `ok` payload names
which driver constructor is invoked (the only place a connection attempt can
happen); the error branch returns `INVALID_DB_TYPE` before any attempt. -/
def create_connection (db_type : String) : Except QueryError DriverKind :=
  if toLowerAscii db_type = "mariadb" ∨ toLowerAscii db_type = "mysql" then
    .ok .mariadb
  else if toLowerAscii db_type = "postgresql" ∨ toLowerAscii db_type = "postgres" then
    .ok .postgres
  else
    .error (QueryError.with_code
      ("Unsupported database type: '" ++ db_type ++
        "'. Supported types: mariadb, mysql, postgresql, postgres")
      "INVALID_DB_TYPE")

/-- C6: engine-kind resolution is case-insensitive and alias-aware; every
string lowercasing to mariadb or mysql selects the MariaDB variant, every
string lowercasing to postgresql or postgres selects the PostgreSQL variant,
and everything else gets the `INVALID_DB_TYPE` error with no constructor
invoked. -/
theorem create_connection_resolution (s : String) :
    (toLowerAscii s = "mariadb" ∨ toLowerAscii s = "mysql" →
      create_connection s = .ok .mariadb) ∧
    (toLowerAscii s = "postgresql" ∨ toLowerAscii s = "postgres" →
      create_connection s = .ok .postgres) ∧
    (toLowerAscii s ≠ "mariadb" → toLowerAscii s ≠ "mysql" →
      toLowerAscii s ≠ "postgresql" → toLowerAscii s ≠ "postgres" →
      create_connection s = .error (QueryError.with_code
        ("Unsupported database type: '" ++ s ++
          "'. Supported types: mariadb, mysql, postgresql, postgres")
        "INVALID_DB_TYPE")) := by
  refine ⟨fun h => ?_, fun h => ?_, fun h1 h2 h3 h4 => ?_⟩ <;> rw [create_connection]
  · rw [if_pos h]
  · rcases h with h | h <;> rw [h] <;> rw [if_neg (by decide), if_pos (by decide)]
  · rw [if_neg (not_or.mpr ⟨h1, h2⟩), if_neg (not_or.mpr ⟨h3, h4⟩)]

/-- Witness for C6 at the concrete alias MySQL in mixed case. -/
theorem create_connection_resolution_witness :
    (toLowerAscii "MySQL" = "mariadb" ∨ toLowerAscii "MySQL" = "mysql") ∧
    create_connection "MySQL" = .ok .mariadb :=
  ⟨by decide, (create_connection_resolution "MySQL").1 (by decide)⟩

/-! ## Query execution row cap (`execute_query` in both drivers) -/

namespace MariaDb

/-- Model of the row-materialization loop of MariaDB `execute_query`: streamed
rows are counted one by one; once the count passes `MAX_QUERY_ROWS` the
truncated flag is set and rows are counted but no longer stored.  `f` stands
for the per-row JSON-object construction from the engine columns. -/
def collectRows {R J : Type} (f : R → J) :
    List R → Nat → Bool → List J → Nat × Bool × List J
  | [], count, trunc, acc => (count, trunc, acc)
  | r :: rest, count, trunc, acc =>
    if count + 1 > MAX_QUERY_ROWS then collectRows f rest (count + 1) true acc
    else collectRows f rest (count + 1) trunc (acc ++ [f r])

/-- Model of MariaDB `execute_query` on the abstract stream of engine rows. -/
def execute_query {R J : Type} (f : R → J) (cols : List String)
    (engineRows : List R) (elapsed : Nat) : QueryResult J :=
  { columns := cols
    rows := (collectRows f engineRows 0 false []).2.2
    row_count := (collectRows f engineRows 0 false []).1
    execution_time := elapsed
    truncated := (collectRows f engineRows 0 false []).2.1 }

/-- Once the cap is reached, the loop only counts. -/
theorem collectRows_full {R J : Type} (f : R → J) :
    ∀ (l : List R) (count : Nat) (acc : List J), MAX_QUERY_ROWS ≤ count →
      collectRows f l count true acc = (count + l.length, true, acc) := by
  intro l
  induction l with
  | nil => intro count acc _; simp [collectRows]
  | cons r rest ih =>
    intro count acc h
    rw [collectRows, if_pos (by omega)]
    rw [ih (count + 1) acc (by omega)]
    simp only [List.length_cons]
    refine congrArg (fun n => (n, true, acc)) ?_
    omega

/-- Closed form of the loop started below the cap. -/
theorem collectRows_spec {R J : Type} (f : R → J) :
    ∀ (l : List R) (count : Nat) (acc : List J), count ≤ MAX_QUERY_ROWS →
      collectRows f l count false acc =
        (count + l.length, decide (MAX_QUERY_ROWS < count + l.length),
          acc ++ (l.take (MAX_QUERY_ROWS - count)).map f) := by
  intro l
  induction l with
  | nil =>
    intro count acc h
    simp [collectRows]
    omega
  | cons r rest ih =>
    intro count acc h
    rw [collectRows]
    by_cases hc : count + 1 > MAX_QUERY_ROWS
    · rw [if_pos hc]
      have hcount : count = MAX_QUERY_ROWS := by omega
      rw [collectRows_full f rest (count + 1) acc (by omega)]
      subst hcount
      simp only [List.length_cons, Nat.sub_self, List.take_zero, List.map_nil,
        List.append_nil, Prod.mk.injEq]
      refine ⟨by omega, ?_, trivial⟩
      have hlt : MAX_QUERY_ROWS < MAX_QUERY_ROWS + (rest.length + 1) := by omega
      simp [hlt]
    · rw [if_neg hc]
      rw [ih (count + 1) (acc ++ [f r]) (by omega)]
      have ht : (r :: rest).take (MAX_QUERY_ROWS - count) =
          r :: rest.take (MAX_QUERY_ROWS - (count + 1)) := by
        have : MAX_QUERY_ROWS - count = (MAX_QUERY_ROWS - (count + 1)) + 1 := by omega
        rw [this, List.take_succ_cons]
      rw [ht]
      simp only [List.map_cons, List.append_assoc, List.singleton_append, List.length_cons]
      refine congrArg (fun n => (n, decide (MAX_QUERY_ROWS < n),
        acc ++ f r :: List.map f (rest.take (MAX_QUERY_ROWS - (count + 1))))) ?_
      omega

end MariaDb

namespace Postgres

/-- Model of PostgreSQL `execute_query` on the fully fetched row list:
`truncated` and `rows_to_process` are computed from the total, then only the
first `rows_to_process` rows are converted. -/
def execute_query {R J : Type} (f : R → J) (cols : List String)
    (rows : List R) (elapsed : Nat) : QueryResult J :=
  { columns := cols
    rows := (rows.take (if rows.length > MAX_QUERY_ROWS then MAX_QUERY_ROWS
      else rows.length)).map f
    row_count := rows.length
    execution_time := elapsed
    truncated := decide (rows.length > MAX_QUERY_ROWS) }

end Postgres

/-- C2: on both drivers, a successful `execute_query` result satisfies
`rows.length = min (row_count, MAX_QUERY_ROWS)` and
`truncated = row_count > MAX_QUERY_ROWS`, where `row_count` is the total
number of engine rows; in particular results within the cap are complete and
not truncated, and results beyond it materialize exactly `MAX_QUERY_ROWS`
rows with `truncated` set. -/
theorem execute_query_row_cap {R J : Type} (f : R → J) (cols : List String)
    (engineRows : List R) (elapsed : Nat) :
    ((MariaDb.execute_query f cols engineRows elapsed).row_count = engineRows.length ∧
      (MariaDb.execute_query f cols engineRows elapsed).rows.length =
        min (MariaDb.execute_query f cols engineRows elapsed).row_count MAX_QUERY_ROWS ∧
      (MariaDb.execute_query f cols engineRows elapsed).truncated =
        decide ((MariaDb.execute_query f cols engineRows elapsed).row_count >
          MAX_QUERY_ROWS)) ∧
    ((Postgres.execute_query f cols engineRows elapsed).row_count = engineRows.length ∧
      (Postgres.execute_query f cols engineRows elapsed).rows.length =
        min (Postgres.execute_query f cols engineRows elapsed).row_count MAX_QUERY_ROWS ∧
      (Postgres.execute_query f cols engineRows elapsed).truncated =
        decide ((Postgres.execute_query f cols engineRows elapsed).row_count >
          MAX_QUERY_ROWS)) := by
  have hm := MariaDb.collectRows_spec f engineRows 0 [] (by simp [MAX_QUERY_ROWS])
  constructor
  · rw [MariaDb.execute_query]
    dsimp only
    rw [hm]
    dsimp only
    refine ⟨by omega, ?_, by simp⟩
    simp [List.length_take]
    omega
  · rw [Postgres.execute_query]
    dsimp only
    refine ⟨rfl, ?_, rfl⟩
    simp [List.length_take]
    split_ifs <;> omega

/-! ## Cell update (`update_cell` in both drivers)

A `SqlCommand` is what a driver hands to the engine: the SQL text plus the
list of driver-level bound parameters (in bind order).  MariaDB goes through
`exec_drop` with placeholders; PostgreSQL goes through `simple_query`, which
carries no parameters at all. -/

structure SqlCommand where
  sql : String
  params : List String
deriving DecidableEq, Repr

namespace MariaDb

/-- MariaDB identifier escaping: double every backtick (byte 96). -/
def escape_identifier (name : String) : String :=
  String.mk (name.data.flatMap fun c => if c.toNat = 96 then [c, c] else [c])

/-- MariaDB string escaping: double every single quote (byte 39), then double
every backslash (byte 92), in that order as the source chains `replace`. -/
def escape_string (value : String) : String :=
  String.mk ((value.data.flatMap fun c => if c.toNat = 39 then [c, c] else [c]).flatMap
    fun c => if c.toNat = 92 then [c, c] else [c])

/-- The command MariaDB `update_cell` submits via `exec_drop`: placeholder SQL
with the new value (when present) and the primary-key value bound as
parameters. -/
def update_cell_command (table_name column_name : String) (new_value : Option String)
    (primary_key_column primary_key_value : String) : SqlCommand :=
  match new_value with
  | some value =>
    { sql := "UPDATE `" ++ escape_identifier table_name ++ "` SET `" ++
        escape_identifier column_name ++ "` = ? WHERE `" ++
        escape_identifier primary_key_column ++ "` = ?"
      params := [value, primary_key_value] }
  | none =>
    { sql := "UPDATE `" ++ escape_identifier table_name ++ "` SET `" ++
        escape_identifier column_name ++ "` = NULL WHERE `" ++
        escape_identifier primary_key_column ++ "` = ?"
      params := [primary_key_value] }

/-- The display rendering (`logged_query`) MariaDB `update_cell` returns on
success: values inlined with escaping, for display purposes. -/
def logged_query (table_name column_name : String) (new_value : Option String)
    (primary_key_column primary_key_value : String) : String :=
  match new_value with
  | some value =>
    "UPDATE `" ++ escape_identifier table_name ++ "` SET `" ++
      escape_identifier column_name ++ "` = '" ++ escape_string value ++
      "' WHERE `" ++ escape_identifier primary_key_column ++ "` = '" ++
      escape_string primary_key_value ++ "'"
  | none =>
    "UPDATE `" ++ escape_identifier table_name ++ "` SET `" ++
      escape_identifier column_name ++ "` = NULL WHERE `" ++
      escape_identifier primary_key_column ++ "` = '" ++
      escape_string primary_key_value ++ "'"

/-- Outcome of the driver-level exec of the update statement. -/
inductive ExecOutcome
  | ok
  | timedOut
  | failed (msg : String)

/-- Model of MariaDB `update_cell`: the submitted parameterized command paired
with the call's result.  On success it returns the display-rendered
`logged_query`; a timeout maps to `TIMEOUT_ERROR`, an exec failure to
`QUERY_ERROR`. -/
def update_cell (table_name column_name : String) (new_value : Option String)
    (primary_key_column primary_key_value : String) (outcome : ExecOutcome) :
    SqlCommand × Except QueryError String :=
  (update_cell_command table_name column_name new_value
      primary_key_column primary_key_value,
    match outcome with
    | .ok => .ok (logged_query table_name column_name new_value
        primary_key_column primary_key_value)
    | .timedOut => .error { message := "Update timed out", code := some "TIMEOUT_ERROR" }
    | .failed m => .error { message := m, code := some "QUERY_ERROR" })

end MariaDb

namespace Postgres

/-- PostgreSQL identifier escaping: double every double quote (byte 34). -/
def escape_identifier (name : String) : String :=
  String.mk (name.data.flatMap fun c => if c.toNat = 34 then [c, c] else [c])

/-- PostgreSQL string escaping: double every single quote (byte 39). -/
def escape_string (value : String) : String :=
  String.mk (value.data.flatMap fun c => if c.toNat = 39 then [c, c] else [c])

/-- The command PostgreSQL `update_cell` submits via `simple_query`: the
escaped values are interpolated into the SQL text and the parameter list is
empty (`simple_query` cannot bind parameters). -/
def update_cell_command (table_name column_name : String) (new_value : Option String)
    (primary_key_column primary_key_value : String) : SqlCommand :=
  { sql :=
      match new_value with
      | some value =>
        "UPDATE \"" ++ escape_identifier table_name ++ "\" SET \"" ++
          escape_identifier column_name ++ "\" = '" ++ escape_string value ++
          "' WHERE \"" ++ escape_identifier primary_key_column ++ "\" = '" ++
          escape_string primary_key_value ++ "'"
      | none =>
        "UPDATE \"" ++ escape_identifier table_name ++ "\" SET \"" ++
          escape_identifier column_name ++ "\" = NULL WHERE \"" ++
          escape_identifier primary_key_column ++ "\" = '" ++
          escape_string primary_key_value ++ "'"
    params := [] }

/-- An engine-reported database error (`tokio_postgres` `DbError`). -/
structure PgDbError where
  message : String
  sqlstate : String
  detail : Option String := none
  hint : Option String := none

/-- A `tokio_postgres` error: either a database error with diagnostics or a
transport-level error carrying only a display string. -/
inductive PgError
  | db (e : PgDbError)
  | other (msg : String)

/-- The contextual-hint table of `pg_error_to_query_error` for common
PostgreSQL SQLSTATE codes. -/
def hint_for_code (c : String) : Option String :=
  if c = "22P02" then some "Value has invalid format for the target column type"
  else if c = "22003" then some "Value is out of range for the target column type"
  else if c = "23502" then some "Column does not allow NULL values"
  else if c = "23503" then some "Referenced value does not exist (foreign key violation)"
  else if c = "23505" then some "Value already exists (unique constraint violation)"
  else if c = "42703" then some "Check column name spelling"
  else if c = "42P01" then some "Check table name spelling"
  else none

/-- Model of `pg_error_to_query_error`: database errors carry the engine
message, the SQLSTATE as the code (overriding the passed category), the detail
when present, and the engine hint or else the contextual hint; other errors
carry the display string and the passed category code. -/
def pg_error_to_query_error (err : PgError) (code : String) : QueryError :=
  match err with
  | .db e =>
    { message := e.message
      code := some e.sqlstate
      detail := e.detail
      hint :=
        match e.hint with
        | some h => some h
        | none => hint_for_code e.sqlstate }
  | .other m => QueryError.with_code m code

/-- Outcome of the `simple_query` round-trip for the update statement. -/
inductive PgExecOutcome
  | ok
  | timedOut
  | err (e : PgError)

/-- Model of PostgreSQL `update_cell`: the submitted interpolated command
paired with the call's result.  Success returns unit (no SQL text); a timeout
maps to `TIMEOUT_ERROR` with a fixed hint; other failures go through
`pg_error_to_query_error` with category `QUERY_ERROR`. -/
def update_cell (table_name column_name : String) (new_value : Option String)
    (primary_key_column primary_key_value : String) (outcome : PgExecOutcome) :
    SqlCommand × Except QueryError Unit :=
  (update_cell_command table_name column_name new_value
      primary_key_column primary_key_value,
    match outcome with
    | .ok => .ok ()
    | .timedOut => .error ((QueryError.with_code "Update operation timed out"
        "TIMEOUT_ERROR").with_hint
        "The database took too long to respond. Try again or check database load.")
    | .err e => .error (pg_error_to_query_error e "QUERY_ERROR"))

end Postgres

/-- C1 (code bug): every command PostgreSQL `update_cell` submits binds zero
driver-level parameters, and at a concrete input its SQL carries the new value
and the primary-key value interpolated in the text, while the MariaDB variant
submits placeholder SQL with both values bound as parameters. -/
theorem pg_update_cell_not_parameterized :
    (∀ (t c : String) (nv : Option String) (pk pkv : String)
        (outcome : Postgres.PgExecOutcome),
      (Postgres.update_cell t c nv pk pkv outcome).1.params = []) ∧
    (Postgres.update_cell_command "users" "name" (some "Bob") "id" "7").sql =
      "UPDATE \"users\" SET \"name\" = 'Bob' WHERE \"id\" = '7'" ∧
    (MariaDb.update_cell_command "users" "name" (some "Bob") "id" "7").params =
      ["Bob", "7"] ∧
    (MariaDb.update_cell_command "users" "name" (some "Bob") "id" "7").sql =
      "UPDATE `users` SET `name` = ? WHERE `id` = ?" := by
  refine ⟨fun t c nv pk pkv outcome => rfl, ?_, rfl, ?_⟩ <;> decide

/-- C3 (code bug): PostgreSQL `update_cell` returns unit on success — the same
`ok ()` for different new values, so the result carries no executed-SQL text —
while MariaDB returns the display-rendered SQL, and PostgreSQL failures carry
the structured error with message, code, detail and hint. -/
theorem pg_update_cell_returns_no_sql :
    (Postgres.update_cell "users" "name" (some "Bob") "id" "1"
        Postgres.PgExecOutcome.ok).2 = .ok () ∧
    (Postgres.update_cell "users" "name" (some "Alice") "id" "1"
        Postgres.PgExecOutcome.ok).2 = .ok () ∧
    (MariaDb.update_cell "users" "name" (some "Bob") "id" "1"
        MariaDb.ExecOutcome.ok).2 =
      .ok "UPDATE `users` SET `name` = 'Bob' WHERE `id` = '1'" ∧
    (Postgres.update_cell "users" "name" (some "Bob") "id" "1"
        (Postgres.PgExecOutcome.err (Postgres.PgError.db
          { message := "null value in column", sqlstate := "23502",
            detail := some "Failing row contains (1, null).", hint := none }))).2 =
      .error { message := "null value in column", code := some "23502",
               detail := some "Failing row contains (1, null).",
               hint := some "Column does not allow NULL values" } :=
  ⟨rfl, rfl, rfl, rfl⟩

/-! ## Database switching (`change_database` in both drivers) -/

namespace MariaDb

/-- The mutable state of a MariaDB connection relevant to database switching:
the shared current-database field. -/
structure ConnState where
  current_database : String
deriving DecidableEq

/-- Model of `get_current_database`. -/
def get_current_database (st : ConnState) : String := st.current_database

/-- Model of MariaDB `change_database`: acquire a pool connection (may fail
with `CONNECTION_ERROR`), issue the USE statement (may fail with
`QUERY_ERROR`), and only then store the new name.  The two oracle arguments
carry the error messages of the fallible steps, when they fail. -/
def change_database (st : ConnState) (database_name : String)
    (connErr useErr : Option String) : Except QueryError Unit × ConnState :=
  match connErr with
  | some e => (.error { message := e, code := some "CONNECTION_ERROR" }, st)
  | none =>
    match useErr with
    | some e => (.error { message := e, code := some "QUERY_ERROR" }, st)
    | none => (.ok (), { current_database := database_name })

end MariaDb

namespace Postgres

/-- The mutable state of a PostgreSQL connection relevant to database
switching: the client slot and the current-database field. -/
structure ConnState (Client : Type) where
  client : Client
  current_database : String

/-- Model of PostgreSQL `change_database`: build a replacement client for the
target database (the oracle carries `create_client`'s result), and only on
success swap it in and store the new name. -/
def change_database {Client : Type} (st : ConnState Client) (database_name : String)
    (createRes : Except QueryError Client) : Except QueryError Unit × ConnState Client :=
  match createRes with
  | .error e => (.error e, st)
  | .ok c => (.ok (), { client := c, current_database := database_name })

/-- Model of `get_current_database`. -/
def get_current_database {Client : Type} (st : ConnState Client) : String :=
  st.current_database

end Postgres

/-- C9: on both drivers the stored current-database value becomes the new name
exactly when `change_database` succeeds, and is left unchanged by every
failing call. -/
theorem change_database_state (stM : MariaDb.ConnState) (name : String)
    (connErr useErr : Option String) {Client : Type} (stP : Postgres.ConnState Client)
    (createRes : Except QueryError Client) :
    (MariaDb.get_current_database (MariaDb.change_database stM name connErr useErr).2 =
      if (MariaDb.change_database stM name connErr useErr).1.isOk then name
      else MariaDb.get_current_database stM) ∧
    (Postgres.get_current_database (Postgres.change_database stP name createRes).2 =
      if (Postgres.change_database stP name createRes).1.isOk then name
      else Postgres.get_current_database stP) := by
  constructor
  · cases connErr with
    | some e => rfl
    | none =>
      cases useErr with
      | some e => rfl
      | none => rfl
  · cases createRes with
    | error e => rfl
    | ok c => rfl

/-! ## Value codec (`mysql_value_to_json` / `pg_value_to_json`)

`JsonVal` stands for `serde_json::Value`; JSON strings carry the UTF-8 bytes
of their text. -/

inductive JsonVal
  | jnull
  | jbool (b : Bool)
  | jint (i : Int)
  | jnum (f : Float)
  | jstr (bytes : List Nat)
  | jarr (elems : List JsonVal)
  | jobj (fields : List (String × JsonVal))

/-- Decimal digits of a natural number as ASCII bytes. -/
def natDigits (n : Nat) : List Nat :=
  if h : n < 10 then [48 + n] else natDigits (n / 10) ++ [48 + n % 10]
termination_by n
decreasing_by omega

/-- Zero-padded decimal rendering to at least `w` digits (Rust `{:0w}`). -/
def padNum (w n : Nat) : List Nat :=
  List.replicate (w - (natDigits n).length) 48 ++ natDigits n

/-- The `mysql_async::Value` constructors (`Time` fields in driver order:
negative flag, days, hours, minutes, seconds, microseconds). -/
inductive MySqlValue
  | NULL
  | Bytes (b : List Nat)
  | Int (i : Int)
  | UInt (u : Nat)
  | Float (f : Float)
  | Double (d : Float)
  | Date (y mo d h mi s micro : Nat)
  | Time (neg : Bool) (days h mi s : Nat) (micro : Nat)

/-- Model of MariaDB `mysql_value_to_json`.  `Bytes` goes through
`String::from_utf8_lossy`; non-finite floats map to null
(`serde_json::Number::from_f64` returns `None` there); `Date`/`Time` are
rendered zero-padded.  The `Time` pattern in the source binds the second,
third and fourth driver fields, which are days, hours and minutes. -/
def mysql_value_to_json : MySqlValue → JsonVal
  | .NULL => .jnull
  | .Bytes b => .jstr (utf8Lossy b)
  | .Int i => .jint i
  | .UInt u => .jint u
  | .Float f => if f.isFinite then .jnum f else .jnull
  | .Double d => if d.isFinite then .jnum d else .jnull
  | .Date y mo d h mi s _ =>
    .jstr (padNum 4 y ++ [45] ++ padNum 2 mo ++ [45] ++ padNum 2 d ++ [32] ++
      padNum 2 h ++ [58] ++ padNum 2 mi ++ [58] ++ padNum 2 s)
  | .Time _ days h mi _ _ =>
    .jstr (padNum 2 days ++ [58] ++ padNum 2 h ++ [58] ++ padNum 2 mi)

/-- A PostgreSQL column value as `pg_value_to_json` reads it: one constructor
per type family matched on, each carrying the flattened
`try_get(..).ok().flatten()` payload (`none` is NULL or a conversion
failure). -/
inductive PgValue
  | bool (v : Option Bool)
  | int2 (v : Option Int)
  | int4 (v : Option Int)
  | int8 (v : Option Int)
  | float4 (v : Option Float)
  | float8 (v : Option Float)
  | text (v : Option (List Nat))
  | bytea (v : Option (List Nat))
  | timestamp (v : Option (Nat × Nat × Nat × Nat × Nat × Nat))
  | date (v : Option (Nat × Nat × Nat))
  | time (v : Option (Nat × Nat × Nat))
  | json (v : Option JsonVal)
  | uuid (v : Option (List Nat))
  | other (v : Option (List Nat))

/-- Model of PostgreSQL `pg_value_to_json`: BYTEA is base64-encoded, JSON and
JSONB pass through structurally, date/time values are rendered fixed-width,
and every `none` payload maps to JSON null. -/
def pg_value_to_json : PgValue → JsonVal
  | .bool (some v) => .jbool v
  | .bool none => .jnull
  | .int2 (some v) => .jint v
  | .int2 none => .jnull
  | .int4 (some v) => .jint v
  | .int4 none => .jnull
  | .int8 (some v) => .jint v
  | .int8 none => .jnull
  | .float4 (some v) => if v.isFinite then .jnum v else .jnull
  | .float4 none => .jnull
  | .float8 (some v) => if v.isFinite then .jnum v else .jnull
  | .float8 none => .jnull
  | .text (some v) => .jstr v
  | .text none => .jnull
  | .bytea (some v) => .jstr (base64Encode v)
  | .bytea none => .jnull
  | .timestamp (some (y, mo, d, h, mi, s)) =>
    .jstr (padNum 4 y ++ [45] ++ padNum 2 mo ++ [45] ++ padNum 2 d ++ [32] ++
      padNum 2 h ++ [58] ++ padNum 2 mi ++ [58] ++ padNum 2 s)
  | .timestamp none => .jnull
  | .date (some (y, mo, d)) =>
    .jstr (padNum 4 y ++ [45] ++ padNum 2 mo ++ [45] ++ padNum 2 d)
  | .date none => .jnull
  | .time (some (h, mi, s)) =>
    .jstr (padNum 2 h ++ [58] ++ padNum 2 mi ++ [58] ++ padNum 2 s)
  | .time none => .jnull
  | .json (some v) => v
  | .json none => .jnull
  | .uuid (some v) => .jstr v
  | .uuid none => .jnull
  | .other (some v) => .jstr v
  | .other none => .jnull

/-- C5 counterexample: on MariaDB, the byte value 0x68 0x69 maps to the JSON
string of its lossy UTF-8 decoding, not to the base64 encoding of the raw
bytes. -/
theorem mysql_bytes_not_base64 :
    mysql_value_to_json (MySqlValue.Bytes [104, 105]) ≠
      JsonVal.jstr (base64Encode [104, 105]) := by
  simp only [mysql_value_to_json]
  simp [utf8Lossy, base64Encode, b64Char]

/-- C5 amended: PostgreSQL maps BYTEA to the base64 string of the raw bytes
and MariaDB maps byte values to their lossy UTF-8 decoding, while NULL (and,
on PostgreSQL, every absent payload) maps to JSON null on both engines. -/
theorem value_to_json_bytes_and_null :
    (∀ b, pg_value_to_json (PgValue.bytea (some b)) = JsonVal.jstr (base64Encode b)) ∧
    (∀ b, mysql_value_to_json (MySqlValue.Bytes b) = JsonVal.jstr (utf8Lossy b)) ∧
    mysql_value_to_json MySqlValue.NULL = JsonVal.jnull ∧
    pg_value_to_json (PgValue.bool none) = JsonVal.jnull ∧
    pg_value_to_json (PgValue.int2 none) = JsonVal.jnull ∧
    pg_value_to_json (PgValue.int4 none) = JsonVal.jnull ∧
    pg_value_to_json (PgValue.int8 none) = JsonVal.jnull ∧
    pg_value_to_json (PgValue.float4 none) = JsonVal.jnull ∧
    pg_value_to_json (PgValue.float8 none) = JsonVal.jnull ∧
    pg_value_to_json (PgValue.text none) = JsonVal.jnull ∧
    pg_value_to_json (PgValue.bytea none) = JsonVal.jnull ∧
    pg_value_to_json (PgValue.timestamp none) = JsonVal.jnull ∧
    pg_value_to_json (PgValue.date none) = JsonVal.jnull ∧
    pg_value_to_json (PgValue.time none) = JsonVal.jnull ∧
    pg_value_to_json (PgValue.json none) = JsonVal.jnull ∧
    pg_value_to_json (PgValue.uuid none) = JsonVal.jnull ∧
    pg_value_to_json (PgValue.other none) = JsonVal.jnull :=
  ⟨fun _ => rfl, fun _ => rfl, rfl, rfl, rfl, rfl, rfl, rfl, rfl, rfl, rfl, rfl,
    rfl, rfl, rfl, rfl, rfl⟩

/-! ## Export data batching (`export_database_with_options`, both drivers)

The data loop of export pages through the table with
`SELECT ... LIMIT 10000 OFFSET k` and, within each page, buffers rows and
flushes an INSERT statement whenever the buffer reaches `max_insert_size`,
flushing a non-empty remainder at page end.  Rows are abstract (`R`); the
rendering of one row into SQL literals is irrelevant to batch boundaries. -/

/-- The pages the export loop reads: successive 10,000-row chunks (the final
query that returns fewer rows than the page size ends the loop; an empty page
contributes nothing on either driver). -/
def pagesOf {R : Type} : List R → List (List R)
  | [] => []
  | r :: rest => (r :: rest).take 10000 :: pagesOf ((r :: rest).drop 10000)
termination_by l => l.length
decreasing_by simp; omega

/-- The buffer-and-flush loop over one page: push each row, flush when the
buffer reaches `m` rows, flush a non-empty remainder at the end. -/
def flushRows {R : Type} (m : Nat) : List R → List R → List (List R)
  | buf, [] => if buf.isEmpty then [] else [buf]
  | buf, r :: rest =>
    if m ≤ (buf ++ [r]).length then (buf ++ [r]) :: flushRows m [] rest
    else flushRows m (buf ++ [r]) rest

/-- The INSERT batches an export emits for a table, in order: each page's
flush sequence, pages concatenated. -/
def exportBatches {R : Type} (m : Nat) (rows : List R) : List (List R) :=
  (pagesOf rows).flatMap fun page => flushRows m [] page

/-- The batch-size shape the claim asserts: every batch before the last holds
exactly `m` rows and the last batch holds between 1 and `m` rows. -/
def goodSizes (m : Nat) : List Nat → Bool
  | [] => true
  | [k] => decide (1 ≤ k ∧ k ≤ m)
  | k :: rest => decide (k = m) && goodSizes m rest

/-- Size-level mirror of `flushRows`: the batch sizes produced from a buffer
of `bufLen` rows and `n` further rows. -/
def sizesAux (m : Nat) : Nat → Nat → List Nat
  | bufLen, 0 => if bufLen = 0 then [] else [bufLen]
  | bufLen, n + 1 =>
    if m ≤ bufLen + 1 then (bufLen + 1) :: sizesAux m 0 n else sizesAux m (bufLen + 1) n

/-- Flushing loses no rows and keeps their order. -/
theorem flushRows_flatten {R : Type} (m : Nat) :
    ∀ (l buf : List R), (flushRows m buf l).flatten = buf ++ l := by
  intro l
  induction l with
  | nil =>
    intro buf
    rw [flushRows]
    cases buf with
    | nil => simp
    | cons b t => simp
  | cons r rest ih =>
    intro buf
    rw [flushRows]
    by_cases h : m ≤ (buf ++ [r]).length
    · rw [if_pos h]
      simp only [List.flatten_cons, ih []]
      simp
    · rw [if_neg h, ih (buf ++ [r])]
      simp

/-- The sizes of the flushed batches depend only on the buffer fill and the
number of remaining rows. -/
theorem flushRows_sizes {R : Type} (m : Nat) :
    ∀ (l buf : List R), (flushRows m buf l).map List.length = sizesAux m buf.length l.length := by
  intro l
  induction l with
  | nil =>
    intro buf
    rw [flushRows]
    simp only [List.length_nil, sizesAux]
    cases buf with
    | nil => simp
    | cons b t => simp
  | cons r rest ih =>
    intro buf
    rw [flushRows]
    simp only [List.length_cons, sizesAux]
    by_cases h : m ≤ (buf ++ [r]).length
    · rw [if_pos h, if_pos (by simpa using h)]
      simp only [List.map_cons, ih []]
      simp
    · rw [if_neg h, if_neg (by simpa using h), ih (buf ++ [r])]
      simp

/-- Prepending a full batch preserves the claimed shape. -/
theorem goodSizes_cons (m : Nat) (S : List Nat) (hm : 1 ≤ m)
    (hS : goodSizes m S = true) : goodSizes m (m :: S) = true := by
  cases S with
  | nil => simp [goodSizes]; omega
  | cons s t => simp [goodSizes, hS]

/-- Every size list the flush loop produces from a buffer below the cap has
the claimed shape. -/
theorem goodSizes_sizesAux (m : Nat) (hm : 1 ≤ m) :
    ∀ (n bufLen : Nat), bufLen < m → goodSizes m (sizesAux m bufLen n) = true := by
  intro n
  induction n with
  | zero =>
    intro bufLen h
    simp only [sizesAux]
    by_cases h0 : bufLen = 0
    · rw [if_pos h0]; rfl
    · rw [if_neg h0]
      simp [goodSizes]
      omega
  | succ n ih =>
    intro bufLen h
    simp only [sizesAux]
    by_cases hc : m ≤ bufLen + 1
    · rw [if_pos hc]
      have : bufLen + 1 = m := by omega
      rw [this]
      exact goodSizes_cons m _ hm (ih 0 (by omega))
    · rw [if_neg hc]
      exact ih (bufLen + 1) (by omega)

/-- Stepping the size loop across one full batch of `m` rows. -/
theorem sizesAux_step (m : Nat) :
    ∀ (d bufLen n : Nat), 1 ≤ d → bufLen + d = m → d ≤ n →
      sizesAux m bufLen n = m :: sizesAux m 0 (n - d) := by
  intro d
  induction d with
  | zero => intro bufLen n h; omega
  | succ d ih =>
    intro bufLen n _ hsum hn
    cases n with
    | zero => omega
    | succ n' =>
      rw [sizesAux]
      by_cases hc : m ≤ bufLen + 1
      · rw [if_pos hc]
        have hd : d = 0 := by omega
        have hb : bufLen + 1 = m := by omega
        subst hd
        rw [hb]
        simp
      · rw [if_neg hc]
        have hd1 : 1 ≤ d := by omega
        rw [ih (bufLen + 1) n' hd1 (by omega) (by omega)]
        refine congrArg (fun k => m :: sizesAux m 0 k) ?_
        omega

/-- The size loop on fewer rows than one batch yields a single partial batch. -/
theorem sizesAux_small (m : Nat) :
    ∀ (n bufLen : Nat), bufLen + n < m →
      sizesAux m bufLen n = if bufLen + n = 0 then [] else [bufLen + n] := by
  intro n
  induction n with
  | zero => intro bufLen h; simp [sizesAux]
  | succ n ih =>
    intro bufLen h
    simp only [sizesAux]
    rw [if_neg (by omega)]
    rw [ih (bufLen + 1) (by omega)]
    rw [if_neg (by omega), if_neg (by omega)]
    refine congrArg (fun k => [k]) ?_
    omega

/-- Closed form of the size loop on `q * m + r` rows, `r < m`. -/
theorem sizesAux_chunks (m : Nat) (hm : 1 ≤ m) :
    ∀ (q r : Nat), r < m →
      sizesAux m 0 (q * m + r) =
        List.replicate q m ++ (if r = 0 then [] else [r]) := by
  intro q
  induction q with
  | zero =>
    intro r hr
    rw [show 0 * m + r = r by ring]
    rw [sizesAux_small m r 0 (by omega)]
    simp
  | succ q ih =>
    intro r hr
    rw [show (q + 1) * m + r = q * m + m + r by ring]
    rw [sizesAux_step m m 0 (q * m + m + r) hm (by omega) (by omega)]
    have h2 : q * m + m + r - m = q * m + r := by omega
    rw [h2, ih r hr]
    simp [List.replicate_succ]

/-- The pages of a short table: the table itself. -/
theorem pagesOf_small {R : Type} (l : List R) (hne : l ≠ []) (hlen : l.length ≤ 10000) :
    pagesOf l = [l] := by
  cases l with
  | nil => exact absurd rfl hne
  | cons r rest =>
    rw [pagesOf]
    rw [List.take_of_length_le hlen, List.drop_eq_nil_of_le hlen]
    rw [pagesOf]

/-- The pages of a long table: one full page, then the pages of the rest. -/
theorem pagesOf_step {R : Type} (l : List R) (hlen : 10000 < l.length) :
    pagesOf l = l.take 10000 :: pagesOf (l.drop 10000) := by
  cases l with
  | nil => simp at hlen
  | cons r rest => rw [pagesOf]

/-- Concatenating the pages restores the table. -/
theorem pagesOf_flatten {R : Type} : ∀ l : List R, (pagesOf l).flatten = l := by
  intro l
  induction l using pagesOf.induct with
  | case1 => rw [pagesOf]; rfl
  | case2 r rest ih =>
    rw [pagesOf]
    rw [List.flatten_cons, ih, List.take_append_drop]

/-- Batch flushing across all pages loses no rows and keeps their order. -/
theorem exportBatches_flatten {R : Type} (m : Nat) (rows : List R) :
    (exportBatches m rows).flatten = rows := by
  rw [exportBatches]
  have h : ∀ ps : List (List R),
      ((ps.flatMap fun page => flushRows m [] page).flatten) = ps.flatten := by
    intro ps
    induction ps with
    | nil => rfl
    | cons p pt ih =>
      rw [List.flatMap_cons, List.flatten_append, ih, List.flatten_cons,
        flushRows_flatten m p []]
      rfl
  rw [h, pagesOf_flatten]

/-- A full leading batch does not affect the claimed shape of a non-empty
tail. -/
theorem goodSizes_cons_ne (m : Nat) (T : List Nat) (hT : T ≠ []) :
    goodSizes m (m :: T) = goodSizes m T := by
  cases T with
  | nil => exact absurd rfl hT
  | cons t ts => simp [goodSizes]

/-- Leading full batches do not affect the claimed shape of what follows. -/
theorem goodSizes_replicate (m : Nat) :
    ∀ (q : Nat) (S : List Nat), S ≠ [] →
      goodSizes m (List.replicate q m ++ S) = goodSizes m S := by
  intro q
  induction q with
  | zero => intro S _; simp
  | succ q ih =>
    intro S hS
    rw [List.replicate_succ, List.cons_append]
    rw [goodSizes_cons_ne m _ (by simp [hS])]
    exact ih S hS

/-- C7 amended: export batches keep the rows in original order; within each
10,000-row page the batches are groups of exactly `max_insert_size` with a
smaller final statement for the page's non-empty remainder, so a table of at
most 10,000 rows gets groups of `max_insert_size` with one final smaller
remainder; with `max_insert_size` 3 and 7 rows the batch sizes are
[3, 3, 1]. -/
theorem exportBatches_shape {R : Type} (rows : List R) (m : Nat) (hm : 1 ≤ m) :
    (exportBatches m rows).flatten = rows ∧
    (∀ page ∈ pagesOf rows, goodSizes m ((flushRows m [] page).map List.length) = true) ∧
    (rows.length ≤ 10000 → goodSizes m ((exportBatches m rows).map List.length) = true) ∧
    (exportBatches 3 (List.range 7)).map List.length = [3, 3, 1] ∧
    (exportBatches 3 (List.range 7)).flatten = List.range 7 := by
  have hconcrete : pagesOf (List.range 7) = [List.range 7] :=
    pagesOf_small _ (by decide) (by decide)
  refine ⟨exportBatches_flatten m rows, ?_, ?_, ?_, ?_⟩
  · intro page _
    rw [flushRows_sizes m page []]
    simp only [List.length_nil]
    exact goodSizes_sizesAux m hm page.length 0 (by omega)
  · intro hlen
    by_cases hne : rows = []
    · subst hne
      rw [exportBatches, pagesOf]
      rfl
    · rw [exportBatches, pagesOf_small rows hne hlen]
      simp only [List.flatMap_cons, List.flatMap_nil, List.append_nil]
      rw [flushRows_sizes m rows []]
      simp only [List.length_nil]
      exact goodSizes_sizesAux m hm rows.length 0 (by omega)
  · rw [exportBatches, hconcrete]
    decide
  · rw [exportBatches, hconcrete]
    decide

/-- Witness for C7 (amended) at seven rows and batch size three. -/
theorem exportBatches_shape_witness :
    (1 ≤ 3 ∧ (List.range 7).length ≤ 10000) ∧
    (exportBatches 3 (List.range 7)).map List.length = [3, 3, 1] ∧
    goodSizes 3 ((exportBatches 3 (List.range 7)).map List.length) = true :=
  ⟨⟨by decide, by decide⟩, (exportBatches_shape (List.range 7) 3 (by decide)).2.2.2.1,
    (exportBatches_shape (List.range 7) 3 (by decide)).2.2.1 (by decide)⟩

/-- C7 counterexample: with batch size 3 and 10,001 rows the export emits the
batch sizes 3 × 3333, then 1 (the first page's remainder), then 1 (the second
page), so a non-final batch is smaller than `max_insert_size` and the claimed
shape — groups of exactly 3 with one final smaller statement — fails. -/
theorem exportBatches_counterexample :
    goodSizes 3 ((exportBatches 3 (List.replicate 10001 0)).map List.length) = false := by
  have hp1 : pagesOf (List.replicate 10001 (0 : Nat)) =
      (List.replicate 10001 (0 : Nat)).take 10000 ::
        pagesOf ((List.replicate 10001 (0 : Nat)).drop 10000) :=
    pagesOf_step _ (by rw [List.length_replicate]; norm_num)
  have htake : (List.replicate 10001 (0 : Nat)).take 10000 = List.replicate 10000 0 := by
    rw [List.take_replicate]
    norm_num
  have hdrop : (List.replicate 10001 (0 : Nat)).drop 10000 = List.replicate 1 0 := by
    rw [List.drop_replicate]
  have hp2 : pagesOf (List.replicate 1 (0 : Nat)) = [List.replicate 1 0] :=
    pagesOf_small _ (by simp) (by simp)
  rw [exportBatches, hp1, htake, hdrop, hp2]
  simp only [List.flatMap_cons, List.flatMap_nil, List.append_nil, List.map_append]
  rw [flushRows_sizes 3 (List.replicate 10000 0) [],
    flushRows_sizes 3 (List.replicate 1 0) []]
  simp only [List.length_nil, List.length_replicate]
  rw [show (10000 : Nat) = 3333 * 3 + 1 by norm_num]
  rw [sizesAux_chunks 3 (by norm_num) 3333 1 (by norm_num)]
  rw [sizesAux_small 3 1 0 (by norm_num)]
  norm_num
  rw [goodSizes_replicate 3 3333 [1, 1] (by simp)]
  rfl
